import Mathlib

/-!
Verification development for the poc-address-finder repository.

The application code is TypeScript/React; the logic the specification talks
about is embedded here as follows.

* JavaScript numbers appearing in the nearest-NMI scan are modelled by
  `JsVal`: either `NaN`, `+Infinity` (the initial `minDist`), or a finite
  value, which we take to be an exact rational.  The IEEE-754 comparison
  semantics that the scan relies on — `NaN < x` is false for every `x`,
  and every finite value is `< Infinity` — is captured by `jlt`.
* The source compares `Math.sqrt(dx^2 + dy^2) < minDist` where `minDist`
  is `Infinity` or an earlier `Math.sqrt` value.  Since `Real.sqrt` is
  strictly monotone on nonnegative arguments, comparing square roots of
  squared distances is equivalent to comparing the squared distances
  themselves; the executable embedding therefore carries the squared
  distance `distSq`, and the minimality statements are phrased back in
  terms of `Real.sqrt` of the squared distances.  (`Math.sqrt` of a
  `NaN` sum is `NaN`, which `distVal` reflects directly.)
* JSON object literals used by the two Next.js API routes carry their own
  data properties as Lean functions `String → Option _`, and the bracket
  access `data[nmi]` is embedded by `bracketLookup`, which also models the
  prototype chain: a key naming an `Object.prototype` member (`toString`,
  `hasOwnProperty`, …) resolves to a truthy inherited value rather than
  `undefined`.  `req.query.nmi` is a `QueryVal` (absent, a single string,
  or a string array), and `typeof nmi !== 'string'` holds exactly off the
  `single` constructor.
* The React `useState` cells of the `MapWithNmi` component form the
  `SelectionState` record; each event handler becomes a pure function from
  the pre-state (plus the outcomes of its external calls: reverse/forward
  geocoding, geolocation) to the post-state, following the handler's
  statement order.
-/

/-- A JavaScript number as it occurs in the nearest-NMI scan: `NaN`,
`+Infinity`, or a finite value (modelled exactly as a rational). -/
inductive JsVal where
  | nan : JsVal
  | inf : JsVal
  | num : ℚ → JsVal
deriving DecidableEq

/-- An input coordinate component: `none` stands for `NaN`, `some q` for the
finite value `q`. -/
abbrev JsNum := Option ℚ

/-- IEEE-754 `<` restricted to the values the scan produces: comparisons with
`NaN` are false, every finite value is below `+Infinity`, `Infinity < Infinity`
is false, and finite values compare as rationals. -/
def jlt : JsVal → JsVal → Bool
  | .num a, .num b => decide (a < b)
  | .num _, .inf => true
  | _, _ => false

/-- An entry of the hardcoded NMI directory (the `NmiGeocode` interface of
`MapWithNmi.tsx`; `App.tsx` uses the same inline record shape). -/
structure NmiGeocode where
  nmi : String
  lat : ℚ
  lng : ℚ
deriving DecidableEq, Repr

/-- Squared Euclidean distance `(r.lat-lat)^2 + (r.lng-lng)^2` from a
directory record to a finite input coordinate. -/
def distSq (r : NmiGeocode) (lat lng : ℚ) : ℚ :=
  (r.lat - lat) ^ 2 + (r.lng - lng) ^ 2

/-- The value the loop body computes for an entry:
`Math.sqrt(Math.pow(entry.lat - lat, 2) + Math.pow(entry.lng - lng, 2))`,
represented by its square.  If either input component is `NaN` the whole
expression is `NaN`. -/
def distVal (r : NmiGeocode) : JsNum → JsNum → JsVal
  | some a, some b => .num (distSq r a b)
  | _, _ => .nan

namespace App

/-- `mockNmiData` of `App.tsx`. -/
def mockNmiData : List NmiGeocode :=
  [⟨"NMI001", -33.8708, 151.2073⟩,
   ⟨"NMI002", -37.8136, 144.9631⟩,
   ⟨"NMI003", -27.4698, 153.0251⟩]

/-- The `for (const entry of ...)` loop of `findNearestNmi` in `App.tsx`,
threading the mutable `minDist` / `nearestNmi` variables. -/
def findNearestLoop : List NmiGeocode → JsNum → JsNum → JsVal → Option String → Option String
  | [], _, _, _, nearestNmi => nearestNmi
  | entry :: rest, lat, lng, minDist, nearestNmi =>
    let dist := distVal entry lat lng
    if jlt dist minDist then findNearestLoop rest lat lng dist (some entry.nmi)
    else findNearestLoop rest lat lng minDist nearestNmi

/-- `findNearestNmi` of `App.tsx`: scan `mockNmiData` starting from
`minDist = Number.POSITIVE_INFINITY`, `nearestNmi = null`. -/
def findNearestNmi (lat lng : JsNum) : Option String :=
  findNearestLoop mockNmiData lat lng .inf none

/-- The `disabled` expression of the Confirm Address button in `App.tsx`:
`!address || address === confirmedAddress` (for a string, `!s` tests
emptiness). -/
def confirmDisabled (address confirmedAddress : String) : Bool :=
  (address == "") || (address == confirmedAddress)

end App

namespace MapWithNmi

/-- `nmiMarkers` of `MapWithNmi.tsx`. -/
def nmiMarkers : List NmiGeocode :=
  [⟨"NMI001", -33.8708, 151.2073⟩,
   ⟨"NMI002", -37.8136, 144.9631⟩,
   ⟨"NMI003", -27.4698, 153.0251⟩]

/-- The `for (const c of ...)` loop inside `fetchNearestNmi` in
`MapWithNmi.tsx`, threading `minDist` / `nearest`.  It is parameterised by
the list it iterates so the specification's statements about arbitrary
(including empty) directories can be expressed; `fetchNearestNmi` applies it
to the fixed `nmiMarkers`. -/
def nearestLoop : List NmiGeocode → JsNum → JsNum → JsVal → Option NmiGeocode → Option NmiGeocode
  | [], _, _, _, nearest => nearest
  | c :: rest, lat, lng, minDist, nearest =>
    let dist := distVal c lat lng
    if jlt dist minDist then nearestLoop rest lat lng dist (some c)
    else nearestLoop rest lat lng minDist nearest

/-- The pure scan over a directory, started like the source loop with
`minDist = Number.POSITIVE_INFINITY`, `nearest = null`. -/
def scanDirectory (dir : List NmiGeocode) (lat lng : JsNum) : Option NmiGeocode :=
  nearestLoop dir lat lng .inf none

/-- The scan part of `fetchNearestNmi` applied to the fixed directory. -/
def scanNearest (lat lng : JsNum) : Option NmiGeocode :=
  scanDirectory nmiMarkers lat lng

end MapWithNmi

/-- `req.query.nmi` in a Next.js API route: absent, a single string, or a
string array.  `typeof nmi === 'string'` holds exactly for `single`. -/
inductive QueryVal where
  | missing : QueryVal
  | single : String → QueryVal
  | multi : List String → QueryVal
deriving DecidableEq

/-- Result of a JavaScript bracket lookup `obj[key]` on a plain object
literal: an own data property of the literal, a value inherited from
`Object.prototype` (always truthy: the inherited members are methods, or the
prototype object itself for `__proto__`), or `undefined`. -/
inductive JsLookup (α : Type) where
  | own : α → JsLookup α
  | inherited : JsLookup α
  | undef : JsLookup α
deriving DecidableEq

/-- The property names every plain object literal inherits from
`Object.prototype`; bracket access with any of these as the key yields a
truthy value even though the literal has no such own key. -/
def objectPrototypeProps : List String :=
  ["constructor", "hasOwnProperty", "isPrototypeOf", "propertyIsEnumerable",
   "toLocaleString", "toString", "valueOf", "__proto__",
   "__defineGetter__", "__defineSetter__", "__lookupGetter__", "__lookupSetter__"]

/-- JavaScript bracket lookup on an object literal whose own data properties
are given by `own`: an own property shadows the prototype; otherwise the
lookup walks the prototype chain, so an `Object.prototype` member name
resolves to an inherited (truthy) value; every other key gives `undefined`. -/
def bracketLookup {α : Type} (own : String → Option α) (key : String) : JsLookup α :=
  (own key).elim
    (if key ∈ objectPrototypeProps then .inherited else .undef)
    .own

namespace Addressfinder

/-- Own data properties of the `mockAddressData` object literal of the
`/api/addressfinder` route. -/
def mockAddressData (nmi : String) : Option String :=
  if nmi = "NMI001" then some "1 Market St, Sydney NSW 2000, Australia"
  else if nmi = "NMI002" then some "123 Collins St, Melbourne VIC 3000, Australia"
  else if nmi = "NMI003" then some "456 Queen St, Brisbane QLD 4000, Australia"
  else none

/-- Response of the `/api/addressfinder` route: `res.status(s).json(body)`.
`ok200Inherited` is the 200 answer produced when `mockAddressData[nmi]` hit
an inherited `Object.prototype` member: the value is truthy, so the 404
guard is skipped, and `JSON.stringify` drops the function-valued `address`
field, leaving a body holding only the echoed `nmi`. -/
inductive Resp where
  | ok200 : String → String → Resp
  | ok200Inherited : String → Resp
  | err : ℕ → String → Resp
deriving DecidableEq

/-- The `/api/addressfinder` handler.  `typeof nmi !== 'string'` → 400; then
`const address = mockAddressData[nmi]` is a prototype-chain bracket lookup,
and `if (!address)` → 404 fires exactly for `undefined` and the empty own
string (inherited values are truthy); otherwise 200 `{nmi, address}`. -/
def handler (q : QueryVal) : Resp :=
  match q with
  | .single nmi =>
    match bracketLookup mockAddressData nmi with
    | .own address =>
      if address = "" then .err 404 "NMI not found" else .ok200 nmi address
    | .inherited => .ok200Inherited nmi
    | .undef => .err 404 "NMI not found"
  | _ => .err 400 "Missing or invalid NMI"

end Addressfinder

namespace Geocode

/-- Own data properties of the `nmiGeocodeData` object literal of the
`/api/geocode` route. -/
def nmiGeocodeData (nmi : String) : Option (ℚ × ℚ) :=
  if nmi = "NMI001" then some (-33.8708, 151.2073)
  else if nmi = "NMI002" then some (-37.8136, 144.9631)
  else if nmi = "NMI003" then some (-27.4698, 153.0251)
  else none

/-- Response of the `/api/geocode` route.  `ok200Inherited` is the 200
answer when `nmiGeocodeData[nmi]` hit an inherited `Object.prototype`
member: the value is truthy, so the 404 guard is skipped, and the spread
`{nmi, ...geocode}` of a function (or of the prototype object, whose own
properties are non-enumerable) contributes nothing, leaving a body holding
only the echoed `nmi`. -/
inductive Resp where
  | ok200 : String → ℚ → ℚ → Resp
  | ok200Inherited : String → Resp
  | err : ℕ → String → Resp
deriving DecidableEq

/-- The `/api/geocode` handler.  `typeof nmi !== 'string'` → 400; then
`const geocode = nmiGeocodeData[nmi]` is a prototype-chain bracket lookup,
and `if (!geocode)` → 404 fires exactly for `undefined` (inherited values
are truthy); otherwise 200 `{nmi, ...geocode}`. -/
def handler (q : QueryVal) : Resp :=
  match q with
  | .single nmi =>
    match bracketLookup nmiGeocodeData nmi with
    | .own geocode => .ok200 nmi geocode.1 geocode.2
    | .inherited => .ok200Inherited nmi
    | .undef => .err 404 "NMI not found"
  | _ => .err 400 "Missing or invalid NMI"

end Geocode

namespace MapWithNmi

/-- The `useState` cells of the `MapWithNmi` component (positions may carry
`NaN` components, hence `JsNum`). -/
structure SelectionState where
  selectedPosition : Option (JsNum × JsNum)
  selectedNmi : Option String
  address : String
  confirmedAddress : String
  loading : Bool
  error : String
deriving DecidableEq

/-- The initial values of the six `useState` calls. -/
def initialState : SelectionState :=
  { selectedPosition := none, selectedNmi := none, address := "",
    confirmedAddress := "", loading := false, error := "" }

/-- `fetchNearestNmi` of `MapWithNmi.tsx` with the internal `/api/geocode`
fetch resolved against the route handler: scan the markers; if no nearest was
found return `null`; otherwise `GET /api/geocode?nmi=<nearest.nmi>`, return
`null` on a non-ok response and the parsed `{nmi, lat, lng}` body otherwise.
The `ok200Inherited` arm is dead code on every input: the scan only ever
yields records of `nmiMarkers`, whose identifiers are own keys of
`nmiGeocodeData`, so that response shape never reaches this caller
(`scanNearest_handler_ok` below); the arm returns `none` as a stand-in for
the coordinate-less body, which no claim's statement depends on. -/
def fetchNearestNmi (lat lng : JsNum) : Option NmiGeocode :=
  match scanNearest lat lng with
  | none => none
  | some nearest =>
    match Geocode.handler (.single nearest.nmi) with
    | .ok200 nmi glat glng => some ⟨nmi, glat, glng⟩
    | .ok200Inherited _ => none
    | .err _ _ => none

/-- The synchronous prefix of `handleMapClick`, executed before any `await`:
`setLoading(true); setError(""); setSelectedPosition({lat,lng});
setSelectedNmi(null); setAddress(""); setConfirmedAddress("")`. -/
def clickStart (s : SelectionState) (lat lng : JsNum) : SelectionState :=
  { s with loading := true, error := "", selectedPosition := some (lat, lng),
           selectedNmi := none, address := "", confirmedAddress := "" }

/-- `handleMapClick` of `MapWithNmi.tsx`.  The reverse-geocoding collaborator
(`fetchAddressFromCoords`, an external service) is passed in as its outcome:
`.ok addr` when the awaited call returns the string `addr`, `.error ()` when
it throws and the `catch` block runs (`setError("Failed to fetch NMI or
address")`); the `finally` block always clears `loading`. -/
def handleMapClick (s : SelectionState) (lat lng : JsNum)
    (reverseGeocode : Except Unit String) : SelectionState :=
  let s0 := clickStart s lat lng
  match fetchNearestNmi lat lng with
  | some g =>
    if g.nmi = "" then { s0 with selectedNmi := none, address := "", loading := false }
    else
      match reverseGeocode with
      | .ok addr => { s0 with selectedNmi := some g.nmi, address := addr, loading := false }
      | .error _ =>
        { s0 with selectedNmi := some g.nmi,
                  error := "Failed to fetch NMI or address", loading := false }
  | none => { s0 with selectedNmi := none, address := "", loading := false }

/-- `handleConfirm` of `MapWithNmi.tsx`.  The forward-geocoding collaborator
(`fetchLatLngFromAddress`) is passed in as its outcome: `.ok (some c)` when it
yields a coordinate, `.ok none` when it resolves without one, `.error ()` when
it throws (the `catch` block is empty). -/
def handleConfirm (s : SelectionState)
    (forwardGeocode : Except Unit (Option (ℚ × ℚ))) : SelectionState :=
  let s1 := { s with confirmedAddress := s.address }
  match forwardGeocode with
  | .ok (some coords) => { s1 with selectedPosition := some (some coords.1, some coords.2) }
  | .ok none => s1
  | .error _ => s1

/-- Outcome of the device geolocation capability for
`handleUseCurrentLocation`: missing capability, a successful fix, or the
error callback (denial / timeout). -/
inductive GeoOutcome where
  | unsupported : GeoOutcome
  | success : ℚ → ℚ → GeoOutcome
  | failure : GeoOutcome

/-- The options object passed to `getCurrentPosition`. -/
structure GeoOptions where
  enableHighAccuracy : Bool
  timeout : ℕ

/-- `{ enableHighAccuracy: true, timeout: 10000 }` from the source. -/
def geoOptions : GeoOptions := { enableHighAccuracy := true, timeout := 10000 }

/-- `handleUseCurrentLocation` of `MapWithNmi.tsx`: without the capability,
set the error message and return (never touching `loading`); otherwise
`setLoading(true); setError("")` and request a fix — the success callback
`await`s `handleMapClick(latitude, longitude)`, the error callback does
`setLoading(false)` and sets the error message. -/
def handleUseCurrentLocation (s : SelectionState) (outcome : GeoOutcome)
    (reverseGeocode : Except Unit String) : SelectionState :=
  match outcome with
  | .unsupported => { s with error := "Geolocation is not supported by your browser." }
  | .success latitude longitude =>
    handleMapClick { s with loading := true, error := "" }
      (some latitude) (some longitude) reverseGeocode
  | .failure =>
    { { s with loading := true, error := "" } with
      loading := false,
      error := "Unable to retrieve your location. Please allow location access and try again." }

/-- The `disabled` expression of the Confirm Address button in
`MapWithNmi.tsx`: `!address || address === confirmedAddress`. -/
def confirmDisabled (s : SelectionState) : Bool :=
  (s.address == "") || (s.address == s.confirmedAddress)

end MapWithNmi

/-- The straightforward "first minimiser" recursion used as the reference
form of the scan: on `e :: rest`, the minimiser of `rest` survives only when
its value is strictly smaller than `e`'s. -/
def firstMinBy (f : NmiGeocode → ℚ) : List NmiGeocode → Option NmiGeocode
  | [] => none
  | e :: rest =>
    (firstMinBy f rest).elim (some e) (fun r => if f r < f e then some r else some e)

/-! ### Helper lemmas -/

theorem distSq_nonneg (r : NmiGeocode) (a b : ℚ) : 0 ≤ distSq r a b :=
  add_nonneg (sq_nonneg _) (sq_nonneg _)

theorem firstMinBy_eq_none_iff (f : NmiGeocode → ℚ) (l : List NmiGeocode) :
    firstMinBy f l = none ↔ l = [] := by
  cases l with
  | nil => simp [firstMinBy]
  | cons e rest =>
    rcases h : firstMinBy f rest with _ | r
    · simp [firstMinBy, h]
    · simp only [firstMinBy, h, Option.elim_some]
      split <;> simp

theorem firstMinBy_spec (f : NmiGeocode → ℚ) :
    ∀ (l : List NmiGeocode) (r : NmiGeocode), firstMinBy f l = some r →
      (∃ pre post, l = pre ++ r :: post ∧ ∀ p ∈ pre, f r < f p) ∧
      ∀ q ∈ l, f r ≤ f q := by
  intro l
  induction l with
  | nil => intro r h; simp [firstMinBy] at h
  | cons e rest ih =>
    intro r h
    rcases h0 : firstMinBy f rest with _ | r0
    · simp only [firstMinBy, h0, Option.elim_none] at h
      obtain rfl : e = r := by injection h
      have hrest : rest = [] := (firstMinBy_eq_none_iff f rest).mp h0
      subst hrest
      exact ⟨⟨[], [], rfl, by simp⟩, by simp⟩
    · simp only [firstMinBy, h0, Option.elim_some] at h
      obtain ⟨⟨pre0, post0, hsplit, hpre⟩, hmin⟩ := ih r0 h0
      by_cases hlt : f r0 < f e
      · rw [if_pos hlt] at h
        obtain rfl : r0 = r := by injection h
        refine ⟨⟨e :: pre0, post0, by rw [hsplit, List.cons_append], ?_⟩, ?_⟩
        · intro p hp
          rcases List.mem_cons.mp hp with rfl | hp
          · exact hlt
          · exact hpre p hp
        · intro q hq
          rcases List.mem_cons.mp hq with rfl | hq
          · exact le_of_lt hlt
          · exact hmin q hq
      · rw [if_neg hlt] at h
        obtain rfl : e = r := by injection h
        refine ⟨⟨[], rest, rfl, by simp⟩, ?_⟩
        intro q hq
        rcases List.mem_cons.mp hq with rfl | hq
        · exact le_refl _
        · exact le_trans (not_lt.mp hlt) (hmin q hq)

theorem nearestLoop_num_acc (a b : ℚ) :
    ∀ (rest : List NmiGeocode) (r : NmiGeocode),
      MapWithNmi.nearestLoop rest (some a) (some b) (.num (distSq r a b)) (some r) =
        (firstMinBy (fun e => distSq e a b) rest).elim (some r)
          (fun r0 => if distSq r0 a b < distSq r a b then some r0 else some r) := by
  intro rest
  induction rest with
  | nil => intro r; simp [MapWithNmi.nearestLoop, firstMinBy]
  | cons e t ih =>
    intro r
    simp only [MapWithNmi.nearestLoop, distVal, jlt]
    by_cases hlt : distSq e a b < distSq r a b
    · rw [if_pos (by simpa using hlt), ih e]
      rcases h0 : firstMinBy (fun x => distSq x a b) t with _ | r0
      · simp only [firstMinBy, h0, Option.elim_none, Option.elim_some]
        rw [if_pos hlt]
      · simp only [firstMinBy, h0, Option.elim_some]
        by_cases h1 : distSq r0 a b < distSq e a b
        · rw [if_pos h1]
          simp only [Option.elim_some]
          rw [if_pos (lt_trans h1 hlt)]
        · rw [if_neg h1]
          simp only [Option.elim_some]
          rw [if_pos hlt]
    · rw [if_neg (by simpa using hlt), ih r]
      rcases h0 : firstMinBy (fun x => distSq x a b) t with _ | r0
      · simp only [firstMinBy, h0, Option.elim_none, Option.elim_some]
        rw [if_neg hlt]
      · simp only [firstMinBy, h0, Option.elim_some]
        by_cases h1 : distSq r0 a b < distSq e a b
        · rw [if_pos h1]
          simp only [Option.elim_some]
        · rw [if_neg h1]
          simp only [Option.elim_some]
          rw [if_neg hlt, if_neg (show ¬distSq r0 a b < distSq r a b by
            push_neg at hlt h1 ⊢
            exact le_trans hlt h1)]

theorem scanDirectory_eq_firstMinBy (dir : List NmiGeocode) (a b : ℚ) :
    MapWithNmi.scanDirectory dir (some a) (some b) =
      firstMinBy (fun e => distSq e a b) dir := by
  cases dir with
  | nil => rfl
  | cons e t =>
    show MapWithNmi.nearestLoop (e :: t) (some a) (some b) .inf none = _
    simp only [MapWithNmi.nearestLoop, distVal, jlt, if_true]
    rw [nearestLoop_num_acc a b t e]
    rcases h0 : firstMinBy (fun x => distSq x a b) t with _ | r0 <;>
      simp only [firstMinBy, h0, Option.elim_none, Option.elim_some]

theorem distVal_nan_left (r : NmiGeocode) (lng : JsNum) : distVal r none lng = .nan := rfl

theorem distVal_nan_right (r : NmiGeocode) (lat : JsNum) : distVal r lat none = .nan := by
  cases lat <;> rfl

theorem jlt_nan_left (v : JsVal) : jlt .nan v = false := rfl

theorem nearestLoop_nan (lat lng : JsNum) (h : lat = none ∨ lng = none) :
    ∀ (entries : List NmiGeocode) (minDist : JsVal) (nearest : Option NmiGeocode),
      MapWithNmi.nearestLoop entries lat lng minDist nearest = nearest := by
  intro entries
  induction entries with
  | nil => intro _ _; rfl
  | cons e t ih =>
    intro md acc
    have hd : distVal e lat lng = .nan := by
      rcases h with h | h <;> subst h
      · exact distVal_nan_left e lng
      · exact distVal_nan_right e lat
    simp only [MapWithNmi.nearestLoop, hd, jlt_nan_left, Bool.false_eq_true, if_false]
    exact ih md acc

theorem findNearestLoop_agree (lat lng : JsNum) :
    ∀ (entries : List NmiGeocode) (minDist : JsVal) (nearest : Option NmiGeocode),
      App.findNearestLoop entries lat lng minDist (Option.map NmiGeocode.nmi nearest) =
        Option.map NmiGeocode.nmi (MapWithNmi.nearestLoop entries lat lng minDist nearest) := by
  intro entries
  induction entries with
  | nil => intro _ _; rfl
  | cons e t ih =>
    intro md acc
    simp only [App.findNearestLoop, MapWithNmi.nearestLoop]
    by_cases hj : jlt (distVal e lat lng) md
    · rw [if_pos hj, if_pos hj]
      exact ih (distVal e lat lng) (some e)
    · rw [if_neg hj, if_neg hj]
      exact ih md acc

theorem mockAddressData_key {n a : String}
    (h : Addressfinder.mockAddressData n = some a) :
    n = "NMI001" ∨ n = "NMI002" ∨ n = "NMI003" := by
  unfold Addressfinder.mockAddressData at h
  split_ifs at h with h1 h2 h3
  · exact Or.inl h1
  · exact Or.inr (Or.inl h2)
  · exact Or.inr (Or.inr h3)

theorem nmiGeocodeData_key {n : String} {g : ℚ × ℚ}
    (h : Geocode.nmiGeocodeData n = some g) :
    n = "NMI001" ∨ n = "NMI002" ∨ n = "NMI003" := by
  unfold Geocode.nmiGeocodeData at h
  split_ifs at h with h1 h2 h3
  · exact Or.inl h1
  · exact Or.inr (Or.inl h2)
  · exact Or.inr (Or.inr h3)

theorem bracketLookup_own_iff {α : Type} (own : String → Option α) (k : String) (v : α) :
    bracketLookup own k = .own v ↔ own k = some v := by
  unfold bracketLookup
  rcases h : own k with _ | w
  · simp only [h, Option.elim_none]
    constructor
    · intro hh
      split at hh <;> exact JsLookup.noConfusion hh
    · intro hh; exact Option.noConfusion hh
  · simp only [h, Option.elim_some]
    constructor
    · intro hh
      injection hh with hw
      rw [hw]
    · intro hh
      obtain rfl : w = v := by injection hh
      rfl

theorem bracketLookup_inherited_mem {α : Type} {own : String → Option α} {k : String}
    (h : bracketLookup own k = .inherited) :
    own k = none ∧ k ∈ objectPrototypeProps := by
  unfold bracketLookup at h
  rcases h0 : own k with _ | w
  · rw [h0, Option.elim_none] at h
    split at h
    next hm => exact ⟨rfl, hm⟩
    next hm => exact JsLookup.noConfusion h
  · rw [h0, Option.elim_some] at h
    exact JsLookup.noConfusion h

theorem geocode_handler_ok_inv {m n : String} {la lb : ℚ}
    (h : Geocode.handler (.single m) = .ok200 n la lb) :
    n = m ∧ Geocode.nmiGeocodeData m = some (la, lb) := by
  simp only [Geocode.handler] at h
  split at h
  next g heq =>
    injection h with h1 h2 h3
    subst h1; subst h2; subst h3
    exact ⟨rfl, (bracketLookup_own_iff _ _ _).mp heq⟩
  next heq => exact Geocode.Resp.noConfusion h
  next heq => exact Geocode.Resp.noConfusion h

theorem af_handler_ok_inv {m n a : String}
    (h : Addressfinder.handler (.single m) = .ok200 n a) :
    n = m ∧ Addressfinder.mockAddressData m = some a := by
  simp only [Addressfinder.handler] at h
  split at h
  next addr heq =>
    split_ifs at h
    injection h with h1 h2
    subst h1; subst h2
    exact ⟨rfl, (bracketLookup_own_iff _ _ _).mp heq⟩
  next heq => exact Addressfinder.Resp.noConfusion h
  next heq => exact Addressfinder.Resp.noConfusion h

theorem fetchNearestNmi_nmi_ne_empty {lat lng : JsNum} {g : NmiGeocode}
    (h : MapWithNmi.fetchNearestNmi lat lng = some g) : g.nmi ≠ "" := by
  simp only [MapWithNmi.fetchNearestNmi] at h
  split at h
  · exact Option.noConfusion h
  next nearest heq =>
    split at h
    next n la lb hgeo =>
      obtain rfl : (⟨n, la, lb⟩ : NmiGeocode) = g := by injection h
      obtain ⟨rfl, hdata⟩ := geocode_handler_ok_inv hgeo
      rcases nmiGeocodeData_key hdata with h1 | h1 | h1 <;>
        (show nearest.nmi ≠ ""; rw [h1]; decide)
    next hgeo => exact Option.noConfusion h
    next st msg hgeo => exact Option.noConfusion h

theorem scanNearest_mem {lat lng : JsNum} {r : NmiGeocode}
    (h : MapWithNmi.scanNearest lat lng = some r) : r ∈ MapWithNmi.nmiMarkers := by
  cases lat with
  | none =>
    exact Option.noConfusion
      (((nearestLoop_nan none lng (Or.inl rfl) MapWithNmi.nmiMarkers .inf none).symm).trans h)
  | some a =>
    cases lng with
    | none =>
      exact Option.noConfusion
        (((nearestLoop_nan (some a) none (Or.inr rfl) MapWithNmi.nmiMarkers .inf none).symm).trans h)
    | some b =>
      have h2 : firstMinBy (fun e => distSq e a b) MapWithNmi.nmiMarkers = some r := by
        rw [← scanDirectory_eq_firstMinBy]
        exact h
      obtain ⟨⟨pre, post, hsplit, _⟩, _⟩ := firstMinBy_spec _ _ r h2
      rw [hsplit]
      exact List.mem_append.mpr (Or.inr (List.mem_cons_self r post))

theorem scanNearest_handler_ok {lat lng : JsNum} {r : NmiGeocode}
    (h : MapWithNmi.scanNearest lat lng = some r) :
    ∃ la lb, Geocode.handler (.single r.nmi) = .ok200 r.nmi la lb := by
  have hmem := scanNearest_mem h
  simp only [MapWithNmi.nmiMarkers, List.mem_cons, List.mem_singleton,
    List.not_mem_nil, or_false] at hmem
  rcases hmem with rfl | rfl | rfl
  · exact ⟨-33.8708, 151.2073,
      by simp [Geocode.handler, bracketLookup, Geocode.nmiGeocodeData]⟩
  · exact ⟨-37.8136, 144.9631,
      by simp [Geocode.handler, bracketLookup, Geocode.nmiGeocodeData]⟩
  · exact ⟨-27.4698, 153.0251,
      by simp [Geocode.handler, bracketLookup, Geocode.nmiGeocodeData]⟩

/-! ### Claim theorems -/

/-- C1: for every finite input coordinate pair, the nearest-NMI scan over a
directory returns the record whose Euclidean distance
`sqrt((r.lat-lat)^2 + (r.lng-lng)^2)` to the input is strictly minimal —
every record placed earlier in directory order is strictly farther (so ties
go to the first record encountered) and every record is at least as far —
and it returns `none` if and only if the directory is empty. -/
theorem C1_resolver_first_min :
    ∀ (dir : List NmiGeocode) (lat lng : ℚ),
      (MapWithNmi.scanDirectory dir (some lat) (some lng) = none ↔ dir = []) ∧
      ∀ r, MapWithNmi.scanDirectory dir (some lat) (some lng) = some r →
        (∃ pre post, dir = pre ++ r :: post ∧
          ∀ p ∈ pre, Real.sqrt ((distSq r lat lng : ℚ) : ℝ)
            < Real.sqrt ((distSq p lat lng : ℚ) : ℝ)) ∧
        ∀ q ∈ dir, Real.sqrt ((distSq r lat lng : ℚ) : ℝ)
          ≤ Real.sqrt ((distSq q lat lng : ℚ) : ℝ) := by
  intro dir lat lng
  rw [scanDirectory_eq_firstMinBy]
  constructor
  · exact firstMinBy_eq_none_iff _ dir
  · intro r h
    obtain ⟨⟨pre, post, hsplit, hpre⟩, hmin⟩ := firstMinBy_spec _ dir r h
    refine ⟨⟨pre, post, hsplit, ?_⟩, ?_⟩
    · intro p hp
      refine (Real.sqrt_lt_sqrt_iff ?_).mpr ?_
      · exact_mod_cast distSq_nonneg r lat lng
      · exact_mod_cast hpre p hp
    · intro q hq
      exact Real.sqrt_le_sqrt (by exact_mod_cast hmin q hq)

/-- Witness for C1: at input (-33.87, 151.21) on the fixed directory the
scan returns the NMI001 record, which is therefore the unique nearest. -/
theorem C1_resolver_first_min_witness :
    (∃ pre post, MapWithNmi.nmiMarkers
        = pre ++ (⟨"NMI001", -33.8708, 151.2073⟩ : NmiGeocode) :: post ∧
      ∀ p ∈ pre,
        Real.sqrt ((distSq ⟨"NMI001", -33.8708, 151.2073⟩ (-33.87) 151.21 : ℚ) : ℝ)
          < Real.sqrt ((distSq p (-33.87) 151.21 : ℚ) : ℝ)) ∧
    ∀ q ∈ MapWithNmi.nmiMarkers,
      Real.sqrt ((distSq ⟨"NMI001", -33.8708, 151.2073⟩ (-33.87) 151.21 : ℚ) : ℝ)
        ≤ Real.sqrt ((distSq q (-33.87) 151.21 : ℚ) : ℝ) :=
  (C1_resolver_first_min MapWithNmi.nmiMarkers (-33.87) 151.21).2
    ⟨"NMI001", -33.8708, 151.2073⟩
    (by norm_num [MapWithNmi.scanDirectory, MapWithNmi.nearestLoop, MapWithNmi.nmiMarkers,
      distVal, jlt, distSq])

/-- C2: every selection event — a map click or NMI-marker click (both enter
`handleMapClick`) or a successful geolocation fix (which re-enters
`handleMapClick`) — synchronously clears `selectedNmi`, `address`,
`confirmedAddress` and `error`, sets `selectedPosition` to the new
coordinate and sets `loading`, all before the resolution completes
(`clickStart` is the pre-`await` prefix); consequently the post-state of any
selection has `confirmedAddress = ""`, never a stale confirmed address. -/
theorem C2_selection_reset :
    ∀ (s : MapWithNmi.SelectionState) (lat lng : JsNum),
      MapWithNmi.clickStart s lat lng =
        { selectedPosition := some (lat, lng), selectedNmi := none, address := "",
          confirmedAddress := "", loading := true, error := "" } ∧
      (∀ rev, (MapWithNmi.handleMapClick s lat lng rev).confirmedAddress = "") ∧
      (∀ (la lb : ℚ) rev,
        (MapWithNmi.handleUseCurrentLocation s (.success la lb) rev).confirmedAddress = "") := by
  have hclick : ∀ (s : MapWithNmi.SelectionState) (la lb : JsNum) rev,
      (MapWithNmi.handleMapClick s la lb rev).confirmedAddress = "" := by
    intro s la lb rev
    simp only [MapWithNmi.handleMapClick]
    split
    · split
      · rfl
      · split <;> rfl
    · rfl
  intro s lat lng
  exact ⟨rfl, fun rev => hclick s lat lng rev,
    fun la lb rev => hclick _ (some la) (some lb) rev⟩

/-- C3: whenever `fetchNearestNmi` returns a record for the selected
coordinate, `handleMapClick` sets `selectedNmi` to that record's identifier,
stores the reverse-geocoded address string obtained for the clicked/located
coordinate as `address`, and clears `loading`. -/
theorem C3_resolved_transition :
    ∀ (s : MapWithNmi.SelectionState) (lat lng : JsNum) (g : NmiGeocode) (addr : String),
      MapWithNmi.fetchNearestNmi lat lng = some g →
      (MapWithNmi.handleMapClick s lat lng (.ok addr)).selectedNmi = some g.nmi ∧
      (MapWithNmi.handleMapClick s lat lng (.ok addr)).address = addr ∧
      (MapWithNmi.handleMapClick s lat lng (.ok addr)).loading = false := by
  intro s lat lng g addr h
  have hne : g.nmi ≠ "" := fetchNearestNmi_nmi_ne_empty h
  simp only [MapWithNmi.handleMapClick]
  split
  next g0 heq =>
    rw [h] at heq
    obtain rfl : g = g0 := by injection heq
    rw [if_neg hne]
    exact ⟨rfl, rfl, rfl⟩
  next heq =>
    rw [h] at heq
    exact Option.noConfusion heq

/-- Witness for C3: clicking at (-33.87, 151.21) resolves NMI001 and stores
the reverse-geocoded string as the draft address with loading cleared. -/
theorem C3_resolved_transition_witness :
    (MapWithNmi.handleMapClick MapWithNmi.initialState (some (-33.87)) (some 151.21)
        (.ok "1 Market St, Sydney NSW 2000, Australia")).selectedNmi
      = some (⟨"NMI001", -33.8708, 151.2073⟩ : NmiGeocode).nmi ∧
    (MapWithNmi.handleMapClick MapWithNmi.initialState (some (-33.87)) (some 151.21)
        (.ok "1 Market St, Sydney NSW 2000, Australia")).address
      = "1 Market St, Sydney NSW 2000, Australia" ∧
    (MapWithNmi.handleMapClick MapWithNmi.initialState (some (-33.87)) (some 151.21)
        (.ok "1 Market St, Sydney NSW 2000, Australia")).loading = false :=
  C3_resolved_transition MapWithNmi.initialState (some (-33.87)) (some 151.21)
    ⟨"NMI001", -33.8708, 151.2073⟩ "1 Market St, Sydney NSW 2000, Australia"
    (by norm_num [MapWithNmi.fetchNearestNmi, MapWithNmi.scanNearest, MapWithNmi.scanDirectory,
      MapWithNmi.nearestLoop, MapWithNmi.nmiMarkers, distVal, jlt, distSq, Geocode.handler,
      Geocode.nmiGeocodeData, bracketLookup])

/-- C5: every confirm action copies the current `address` (draft) into
`confirmedAddress`; the subsequent forward-geocoding updates
`selectedPosition` only when it yields a coordinate, and both kinds of
failure (no result, thrown error) leave `selectedPosition` and `error`
unchanged — indeed `error` is untouched in every case. -/
theorem C5_confirm_best_effort :
    ∀ (s : MapWithNmi.SelectionState) (fwd : Except Unit (Option (ℚ × ℚ))),
      (MapWithNmi.handleConfirm s fwd).confirmedAddress = s.address ∧
      (MapWithNmi.handleConfirm s fwd).error = s.error ∧
      (∀ c, fwd = .ok (some c) →
        (MapWithNmi.handleConfirm s fwd).selectedPosition = some (some c.1, some c.2)) ∧
      (fwd = .ok none →
        (MapWithNmi.handleConfirm s fwd).selectedPosition = s.selectedPosition) ∧
      (∀ e, fwd = .error e →
        (MapWithNmi.handleConfirm s fwd).selectedPosition = s.selectedPosition) := by
  intro s fwd
  cases fwd with
  | error e =>
    refine ⟨rfl, rfl, ?_, ?_, ?_⟩
    · intro c hc; cases hc
    · intro hc; cases hc
    · intro e2 he; rfl
  | ok v =>
    cases v with
    | none =>
      refine ⟨rfl, rfl, ?_, ?_, ?_⟩
      · intro c hc; cases hc
      · intro hc; rfl
      · intro e2 he; cases he
    | some c =>
      refine ⟨rfl, rfl, ?_, ?_, ?_⟩
      · intro c2 hc
        injection hc with h1
        injection h1 with h2
        subst h2
        rfl
      · intro hc; cases hc
      · intro e2 he; cases he

/-- Witness for C5: confirming on a state with a nonempty draft and a
failed (resultless) forward geocode copies the draft and keeps the
position. -/
theorem C5_confirm_best_effort_witness :
    (MapWithNmi.handleConfirm MapWithNmi.initialState (.ok none)).confirmedAddress
      = MapWithNmi.initialState.address ∧
    (MapWithNmi.handleConfirm MapWithNmi.initialState (.ok none)).selectedPosition
      = MapWithNmi.initialState.selectedPosition :=
  ⟨(C5_confirm_best_effort MapWithNmi.initialState (.ok none)).1,
   (C5_confirm_best_effort MapWithNmi.initialState (.ok none)).2.2.2.1 rfl⟩

/-- C6: on "use current location": without the geolocation capability only
the error message is set — `loading` keeps its prior value, so Loading is
never entered; the fix is requested with `enableHighAccuracy` and a
10000 ms timeout; a successful fix produces exactly the state of a map
click at that coordinate; a denial or timeout sets the error message and
clears `loading` while leaving `selectedNmi` untouched. -/
theorem C6_geolocation :
    ∀ (s : MapWithNmi.SelectionState) (rev : Except Unit String),
      (MapWithNmi.handleUseCurrentLocation s .unsupported rev).error
        = "Geolocation is not supported by your browser." ∧
      (MapWithNmi.handleUseCurrentLocation s .unsupported rev).loading = s.loading ∧
      MapWithNmi.geoOptions.enableHighAccuracy = true ∧
      MapWithNmi.geoOptions.timeout = 10000 ∧
      (∀ la lb : ℚ, MapWithNmi.handleUseCurrentLocation s (.success la lb) rev
        = MapWithNmi.handleMapClick s (some la) (some lb) rev) ∧
      (MapWithNmi.handleUseCurrentLocation s .failure rev).error
        = "Unable to retrieve your location. Please allow location access and try again." ∧
      (MapWithNmi.handleUseCurrentLocation s .failure rev).loading = false ∧
      (MapWithNmi.handleUseCurrentLocation s .failure rev).selectedNmi = s.selectedNmi := by
  intro s rev
  exact ⟨rfl, rfl, rfl, rfl, fun la lb => rfl, rfl, rfl, rfl⟩

/-- C7: in both components the Confirm Address button is disabled exactly
when the draft address is the empty string or already equals the confirmed
address, and enabled in every other state. -/
theorem C7_confirm_disabled_iff :
    (∀ s : MapWithNmi.SelectionState,
      MapWithNmi.confirmDisabled s = true ↔
        s.address = "" ∨ s.address = s.confirmedAddress) ∧
    (∀ address confirmedAddress : String,
      App.confirmDisabled address confirmedAddress = true ↔
        address = "" ∨ address = confirmedAddress) := by
  constructor
  · intro s
    simp [MapWithNmi.confirmDisabled]
  · intro a c
    simp [App.confirmDisabled]

/-- C8: every identifier present in the Address Directory is also present
in the NMI Directory, and consequently a `200` from `/api/addressfinder`
for an identifier implies a `200` from `/api/geocode` for the same
identifier on the same request. -/
theorem C8_foreign_key :
    (∀ n, (Addressfinder.mockAddressData n).isSome →
      (Geocode.nmiGeocodeData n).isSome) ∧
    (∀ q n a, Addressfinder.handler q = .ok200 n a →
      ∃ lat lng, Geocode.handler q = .ok200 n lat lng) := by
  constructor
  · intro n h
    rw [Option.isSome_iff_exists] at h
    obtain ⟨a, h⟩ := h
    rcases mockAddressData_key h with rfl | rfl | rfl <;>
      simp [Geocode.nmiGeocodeData]
  · intro q n a h
    cases q with
    | missing => exact Addressfinder.Resp.noConfusion h
    | multi ss => exact Addressfinder.Resp.noConfusion h
    | single m =>
      obtain ⟨rfl, hdata⟩ := af_handler_ok_inv h
      rcases mockAddressData_key hdata with rfl | rfl | rfl
      · exact ⟨-33.8708, 151.2073, by simp [Geocode.handler, Geocode.nmiGeocodeData, bracketLookup]⟩
      · exact ⟨-37.8136, 144.9631, by simp [Geocode.handler, Geocode.nmiGeocodeData, bracketLookup]⟩
      · exact ⟨-27.4698, 153.0251, by simp [Geocode.handler, Geocode.nmiGeocodeData, bracketLookup]⟩

/-- Witness for C8: NMI001 has an address, so its geocode lookup also
succeeds. -/
theorem C8_foreign_key_witness :
    ∃ lat lng, Geocode.handler (.single "NMI001") = .ok200 "NMI001" lat lng :=
  C8_foreign_key.2 (.single "NMI001") "NMI001" "1 Market St, Sydney NSW 2000, Australia"
    (by simp [Addressfinder.handler, Addressfinder.mockAddressData, bracketLookup])

/-- C9: when either input component is NaN, both nearest-NMI scans return
`none` although their directories are non-empty: every computed distance is
NaN and never compares strictly below the initial `Infinity`, so the result
variable is never assigned.  Hence a `none` result is not exclusive to an
empty directory once non-finite inputs are admitted. -/
theorem C9_nan_input :
    (∀ lng, MapWithNmi.scanNearest none lng = none) ∧
    (∀ lat, MapWithNmi.scanNearest lat none = none) ∧
    (∀ lng, MapWithNmi.fetchNearestNmi none lng = none) ∧
    (∀ lat, MapWithNmi.fetchNearestNmi lat none = none) ∧
    (∀ lng, App.findNearestNmi none lng = none) ∧
    (∀ lat, App.findNearestNmi lat none = none) ∧
    MapWithNmi.nmiMarkers ≠ [] ∧ App.mockNmiData ≠ [] := by
  have hscan : ∀ (lat lng : JsNum), lat = none ∨ lng = none →
      MapWithNmi.scanNearest lat lng = none := fun lat lng h =>
    nearestLoop_nan lat lng h MapWithNmi.nmiMarkers .inf none
  have hfetch : ∀ (lat lng : JsNum), lat = none ∨ lng = none →
      MapWithNmi.fetchNearestNmi lat lng = none := by
    intro lat lng h
    simp only [MapWithNmi.fetchNearestNmi]
    split
    · rfl
    next nearest heq => exact Option.noConfusion ((hscan lat lng h).symm.trans heq)
  have happ : ∀ (lat lng : JsNum), lat = none ∨ lng = none →
      App.findNearestNmi lat lng = none := by
    intro lat lng h
    have hagree := findNearestLoop_agree lat lng App.mockNmiData .inf none
    have hmw : MapWithNmi.nearestLoop App.mockNmiData lat lng .inf none = none :=
      nearestLoop_nan lat lng h App.mockNmiData .inf none
    rw [hmw] at hagree
    exact hagree
  refine ⟨fun lng => hscan none lng (Or.inl rfl), fun lat => hscan lat none (Or.inr rfl),
    fun lng => hfetch none lng (Or.inl rfl), fun lat => hfetch lat none (Or.inr rfl),
    fun lng => happ none lng (Or.inl rfl), fun lat => happ lat none (Or.inr rfl),
    by simp [MapWithNmi.nmiMarkers], by simp [App.mockNmiData]⟩

/-- C10: the two nearest-NMI implementations agree — their hardcoded
directories are equal, and on every input pair (including NaN components)
`findNearestNmi` of `App.tsx` returns exactly the identifier of the record
selected by the scan inside `fetchNearestNmi` of `MapWithNmi.tsx` (both
`none` when nothing is selected). -/
theorem C10_implementations_agree :
    App.mockNmiData = MapWithNmi.nmiMarkers ∧
    ∀ lat lng : JsNum,
      App.findNearestNmi lat lng
        = Option.map NmiGeocode.nmi (MapWithNmi.scanNearest lat lng) := by
  refine ⟨rfl, ?_⟩
  intro lat lng
  exact findNearestLoop_agree lat lng MapWithNmi.nmiMarkers .inf none
